import Mathlib

/-!
Verification of the algal-bloom dashboard's data pipeline
(`algal_dashboard.py`): record loading with the coordinate left join,
the map filter, the default species selection, the marker/bounding-box
computation, and the trend pivot/melt aggregation.

Modelling conventions:
* a pandas DataFrame of monitoring records is a `List` of records;
  nullable cells are `Option` values (`none` = NaN/NaT);
* dates are `Int` (a parsed timestamp is only ever compared/ordered);
  numeric values are `ℚ`;
* a missing file is `none` at the `Option (List _)` level;
* exceptions raised by pandas/streamlit are `Except.error` outcomes.
-/

/-- A raw date cell before `pd.to_datetime`: a parseable value, an empty
cell (NaN, which `to_datetime` maps to NaT), or a malformed string (on
which `to_datetime` raises, since `errors` defaults to `raise`). -/
inductive RawDate where
  | valid (d : Int)
  | missing
  | malformed
deriving DecidableEq, Repr

/-- A row of the primary records file as read by
`pd.read_csv`/`pd.read_excel`, before date parsing. -/
structure RawRecord where
  site : String
  rawDate : RawDate
  species : Option String
  value : Option ℚ
  units : Option String
deriving DecidableEq, Repr

/-- A primary-records row after `pd.to_datetime` on
`Date_Sample_Collected` (all dates parsed or NaT). -/
structure BaseRecord where
  site : String
  date : Option Int
  species : Option String
  value : Option ℚ
  units : Option String
deriving DecidableEq, Repr

/-- A row of `site_coordinates.csv`. -/
structure CoordRow where
  site : String
  lat : Option ℚ
  lon : Option ℚ
deriving DecidableEq, Repr

/-- A row of the joined dataset returned by `load_data`:
a `BaseRecord` plus the coordinates brought in by the merge. -/
structure Record where
  site : String
  date : Option Int
  species : Option String
  value : Option ℚ
  units : Option String
  lat : Option ℚ
  lon : Option ℚ
deriving DecidableEq, Repr

/-- The non-coordinate part of a joined row. -/
def Record.toBase (r : Record) : BaseRecord :=
  ⟨r.site, r.date, r.species, r.value, r.units⟩

/-- Model of `pd.to_datetime` on one cell: parseable values become timestamps,
empty cells become NaT, malformed values raise. -/
def parseDate : RawDate → Except Unit (Option Int)
  | .valid d => .ok (some d)
  | .missing => .ok none
  | .malformed => .error ()

/-- Model of `pd.to_datetime` over the whole `Date_Sample_Collected` column:
any malformed cell makes the whole call raise. -/
def parseDates : List RawRecord → Except Unit (List BaseRecord)
  | [] => .ok []
  | r :: rs =>
    match parseDate r.rawDate, parseDates rs with
    | .ok d, .ok rest => .ok (⟨r.site, d, r.species, r.value, r.units⟩ :: rest)
    | _, _ => .error ()

/-- Model of `df.merge(coords_df, on="Site_Description", how="left")`: each left
row is emitted once per matching coordinate row (in coordinate-file
order), or once with null coordinates when no coordinate row matches. -/
def mergeLeft (df : List BaseRecord) (coords_df : List CoordRow) : List Record :=
  df.flatMap (fun r =>
    if (coords_df.filter (fun c => c.site == r.site)).isEmpty
    then [⟨r.site, r.date, r.species, r.value, r.units, none, none⟩]
    else (coords_df.filter (fun c => c.site == r.site)).map
      (fun c => ⟨r.site, r.date, r.species, r.value, r.units, c.lat, c.lon⟩))

/-- The distinct ways `load_data` can terminate without a dataset. -/
inductive LoadError where
  | coordsMissing
  | dateParseError
  | mergeKeyError
deriving DecidableEq, Repr

/-- Model of `load_data(file_path, coords_csv)`. `primary = none` models a missing
primary file (the code then sets `df = pd.DataFrame()`, a frame with NO
columns); `coords = none` models a missing coordinates file (the code
calls `st.stop()`, halting with no result). Date parsing happens before
the coordinates-file check, so a malformed date raises first. When the
primary file is missing, the final `df.merge(..., on="Site_Description")`
raises `KeyError` because the empty frame has no `Site_Description`
column. -/
def load_data (primary : Option (List RawRecord)) (coords : Option (List CoordRow)) :
    Except LoadError (List Record) :=
  match primary with
  | none =>
    match coords with
    | none => .error .coordsMissing
    | some _ => .error .mergeKeyError
  | some rows =>
    match parseDates rows with
    | .error _ => .error .dateParseError
    | .ok base =>
      match coords with
      | none => .error .coordsMissing
      | some cs => .ok (mergeLeft base cs)

/-- Python list prefix test on characters, used to build substring
containment. -/
def charsStartWith : List Char → List Char → Bool
  | _, [] => true
  | [], _ :: _ => false
  | h :: hs, p :: ps => h == p && charsStartWith hs ps

/-- Python `pat in s` substring containment over characters. -/
def charsContain : List Char → List Char → Bool
  | [], pat => pat.isEmpty
  | h :: t, pat => charsStartWith (h :: t) pat || charsContain t pat

/-- Python `pat in s` on strings. -/
def pyContains (s pat : String) : Bool :=
  charsContain s.toList pat.toList

/-- Python's lexicographic `≤` on character sequences (code-point
order), the order `sorted` uses on strings. -/
def charsLe : List Char → List Char → Bool
  | [], _ => true
  | _ :: _, [] => false
  | a :: as, b :: bs =>
    if a < b then true else if b < a then false else charsLe as bs

/-- Python's `≤` on strings. -/
def pyStrLe (a b : String) : Bool :=
  charsLe a.toList b.toList

/-- Model of `sorted(df['Result_Name'].dropna().unique())`: the distinct non-null
species names, sorted ascending. -/
def all_species (df : List Record) : List String :=
  ((df.filterMap Record.species).dedup).insertionSort (fun a b => pyStrLe a b = true)

/-- Model of `[s for s in all_species if "Karenia" in s] or all_species[:1]`:
the Karenia-matching species if any, else the first species (Python `or`
takes the right operand when the left list is empty). -/
def default_species (df : List Record) : List String :=
  if ((all_species df).filter (fun s => pyContains s "Karenia")).isEmpty
  then (all_species df).take 1
  else (all_species df).filter (fun s => pyContains s "Karenia")

/-- Model of `filter_dataset(df, species_list, start_dt, end_dt)`: the rows whose
species is in `species_list` (`Series.isin`, false on NaN), whose date is
between the bounds inclusive (`Series.between`, false on NaT), and whose
value is non-null (`Series.notna`). -/
def filter_dataset (df : List Record) (species_list : List String)
    (start_dt end_dt : Int) : List Record :=
  df.filter (fun r =>
    (match r.species with
     | some n => species_list.contains n
     | none => false) &&
    (match r.date with
     | some d => decide (start_dt ≤ d) && decide (d ≤ end_dt)
     | none => false) &&
    r.value.isSome)

/-- The rows the marker loop draws: `pd.notna(row['Latitude'])` and
`pd.notna(row['Longitude'])`. -/
def markerPoints (sub_df : List Record) : List Record :=
  sub_df.filter (fun r => r.lat.isSome && r.lon.isSome)

/-- The argument the marker loop hands to the colormap:
`value if pd.notna(value) else 1`. -/
def colorInput (r : Record) : ℚ :=
  match r.value with
  | some v => v
  | none => 1

/-- Model of `Series.min()`: the minimum over the non-null entries, NaN (`none`)
when every entry is null or the series is empty. -/
def seriesMin (l : List (Option ℚ)) : Option ℚ :=
  match l.filterMap id with
  | [] => none
  | h :: t => some (t.foldl min h)

/-- Model of `Series.max()`: the maximum over the non-null entries, NaN (`none`)
when every entry is null or the series is empty. -/
def seriesMax (l : List (Option ℚ)) : Option ℚ :=
  match l.filterMap id with
  | [] => none
  | h :: t => some (t.foldl max h)

/-- The `m.fit_bounds` call: executed iff `sub_df` is nonempty, with the
per-axis min/max of `sub_df`'s Latitude and Longitude columns
(`none` = no call; the inner options model NaN corners). -/
def fitBoundsCall (sub_df : List Record) :
    Option ((Option ℚ × Option ℚ) × (Option ℚ × Option ℚ)) :=
  if sub_df.isEmpty then none
  else some ((seriesMin (sub_df.map Record.lat), seriesMin (sub_df.map Record.lon)),
             (seriesMax (sub_df.map Record.lat), seriesMax (sub_df.map Record.lon)))

/-- One row of the melted trend table
(`Date_Sample_Collected`, `Species`, `Cell_Count`). -/
structure TrendRow where
  date : Int
  species : String
  cell : Option ℚ
deriving DecidableEq, Repr

/-- The row filter inside `prepare_trends_data`: species membership and
non-null value, then the optional single-site restriction. -/
def trendFilter (full_df : List Record) (species_list : List String)
    (site_name : String) : List Record :=
  let plot_df := full_df.filter (fun r =>
    (match r.species with
     | some n => species_list.contains n
     | none => false) && r.value.isSome)
  if site_name ≠ "All Sites" then plot_df.filter (fun r => r.site == site_name)
  else plot_df

/-- The `pivot_table` index: the distinct non-NaT dates, ascending
(groupby drops NaT keys and sorts). -/
def pivotIndex (plot_df : List Record) : List Int :=
  ((plot_df.filterMap Record.date).dedup).insertionSort (fun a b => a ≤ b)

/-- The `pivot_table` columns: the distinct species among rows with a
non-NaT date, ascending (rows whose date key is NaT are dropped by the
underlying groupby, so a species seen only on such rows gets no column). -/
def pivotCols (plot_df : List Record) : List String :=
  (((plot_df.filter (fun r => r.date.isSome)).filterMap Record.species).dedup).insertionSort
    (fun a b => pyStrLe a b = true)

/-- The non-null values of the (date, species) group, as collected by the
pivot's groupby. -/
def groupValues (plot_df : List Record) (d : Int) (sp : String) : List ℚ :=
  plot_df.filterMap (fun r =>
    if r.date == some d && r.species == some sp then r.value else none)

/-- One cell of the pivot table: the arithmetic mean of the group
(`aggfunc='mean'`), NaN when the group is empty. -/
def cellMean (plot_df : List Record) (d : Int) (sp : String) : Option ℚ :=
  if (groupValues plot_df d sp).isEmpty then none
  else some ((groupValues plot_df d sp).sum / ((groupValues plot_df d sp).length : ℚ))

/-- The `pivot_table` + `melt` composition on the filtered frame: `melt`
walks the value columns (species, in pivot column order) and for each
emits every pivot row (date) with that cell, including cells the groupby
never filled, which stay NaN. -/
def meltOutput (plot_df : List Record) : List TrendRow :=
  (pivotCols plot_df).flatMap (fun sp =>
    (pivotIndex plot_df).map (fun d => ⟨d, sp, cellMean plot_df d sp⟩))

/-- Model of `prepare_trends_data(full_df, species_list, site_name)`: filter, the
early return on an empty frame, then `pivot_table` (mean by date and
species) followed by `melt` into long form (`meltOutput`). The
`sort_values` step is omitted: the pivot's index/columns are sorted sets
and the mean is symmetric under row order, so it cannot affect the
output. -/
def prepare_trends_data (full_df : List Record) (species_list : List String)
    (site_name : String) : List TrendRow :=
  if (trendFilter full_df species_list site_name).isEmpty then []
  else meltOutput (trendFilter full_df species_list site_name)

/-- The two derived views `main` computes from the loaded dataset and the
widget state: the map layer (markers from the date-filtered subset plus
its fit-bounds box) and the trend table (from the full dataset). -/
structure DashboardView where
  mapRows : List Record
  bounds : Option ((Option ℚ × Option ℚ) × (Option ℚ × Option ℚ))
  trend : List TrendRow
deriving DecidableEq, Repr

/-- The dataflow of `main` after loading: `sub_df = filter_dataset(df,
species_selected, start_date, end_date)` feeds the marker loop and
`fit_bounds`, while `prepare_trends_data` is called on the full `df`. -/
def dashboard (df : List Record) (species_selected : List String)
    (start_date end_date : Int) (trend_species : List String)
    (selected_site : String) : DashboardView :=
  let sub_df := filter_dataset df species_selected start_date end_date
  { mapRows := markerPoints sub_df
    bounds := fitBoundsCall sub_df
    trend := prepare_trends_data df trend_species selected_site }

/-- Concrete coordinate table used by the evaluation theorems. -/
def exCoords : List CoordRow := [⟨"Site A", some (-35), some 138⟩]

/-- Concrete raw primary rows: one site in the coordinate table, one not. -/
def exRawRows : List RawRecord :=
  [⟨"Site A", .valid 3, some "Karenia mikimotoi", some 100, some "cells/L"⟩,
   ⟨"Site Z", .valid 4, some "Alexandrium sp.", some 5, none⟩]

/-- The rows of `exRawRows` after date parsing. -/
def exBase : List BaseRecord :=
  [⟨"Site A", some 3, some "Karenia mikimotoi", some 100, some "cells/L"⟩,
   ⟨"Site Z", some 4, some "Alexandrium sp.", some 5, none⟩]

/-- Concrete raw primary rows where the second row's date is malformed. -/
def exMalformedRows : List RawRecord :=
  [⟨"Site A", .valid 3, some "Karenia mikimotoi", some 100, none⟩,
   ⟨"Site B", .malformed, some "Alexandrium sp.", some 5, none⟩]

/-- Joined rows whose species list contains a Karenia match. -/
def exKareniaDf : List Record :=
  [⟨"Site A", some 0, some "Karenia mikimotoi", some 10, none, none, none⟩,
   ⟨"Site B", some 0, some "Alexandrium sp.", some 5, none, none, none⟩]

/-- Joined rows with no Karenia species. -/
def exNoKareniaDf : List Record :=
  [⟨"Site A", some 0, some "Alexandrium sp.", some 10, none, none, none⟩,
   ⟨"Site B", some 0, some "Other sp.", some 5, none, none, none⟩]

/-- Joined rows where species A appears only on date 1 and species B only
on date 2. -/
def exTrendDf : List Record :=
  [⟨"Site A", some 1, some "A", some 10, none, none, none⟩,
   ⟨"Site A", some 2, some "B", some 20, none, none, none⟩]

/-- Two same-day, same-species records with values 100 and 300. -/
def exMeanDf : List Record :=
  [⟨"Site A", some 5, some "K", some 100, none, none, none⟩,
   ⟨"Site A", some 5, some "K", some 300, none, none, none⟩]

/-- A filtered row with both coordinates at (-35, 138). -/
def exPointRow : Record := ⟨"Site A", some 1, some "K", some 10, none, some (-35), some 138⟩

/-- A second fully located row at (-34, 139). -/
def exPointRow2 : Record := ⟨"Site B", some 2, some "K", some 20, none, some (-34), some 139⟩

/-- A row with a latitude but a null longitude: it is never drawn as a
marker yet its latitude still feeds the fit-bounds min/max. -/
def exHalfCoordRow : Record := ⟨"Site C", some 1, some "K", some 30, none, some (-40), none⟩

/-- Dataset of the two fully located rows. -/
def exBoundsDf : List Record := [exPointRow, exPointRow2]

/-- Lexicographic character comparison is reflexive. -/
theorem charsLe_refl : ∀ a : List Char, charsLe a a = true := by
  intro a
  induction a with
  | nil => rfl
  | cons x xs ih => simp [charsLe, lt_irrefl, ih]

/-- Lexicographic character comparison is total. -/
theorem charsLe_total : ∀ a b : List Char, charsLe a b = true ∨ charsLe b a = true := by
  intro a
  induction a with
  | nil => intro b; left; rfl
  | cons x xs ih =>
    intro b
    cases b with
    | nil => right; rfl
    | cons y ys =>
      by_cases hxy : x < y
      · left; simp [charsLe, hxy]
      · by_cases hyx : y < x
        · right; simp [charsLe, hyx]
        · rcases ih ys with h | h
          · left; simp [charsLe, hxy, hyx, h]
          · right; simp [charsLe, hxy, hyx, h]

/-- Lexicographic character comparison is transitive. -/
theorem charsLe_trans : ∀ a b c : List Char,
    charsLe a b = true → charsLe b c = true → charsLe a c = true := by
  intro a
  induction a with
  | nil => intro b c _ _; rfl
  | cons x xs ih =>
    intro b c hab hbc
    cases b with
    | nil => simp [charsLe] at hab
    | cons y ys =>
      cases c with
      | nil => simp [charsLe] at hbc
      | cons z zs =>
        simp only [charsLe] at hab hbc ⊢
        by_cases hxy : x < y
        · by_cases hyz : y < z
          · simp [lt_trans hxy hyz]
          · by_cases hzy : z < y
            · rw [if_neg hyz, if_pos hzy] at hbc
              cases hbc
            · have hyzeq : y = z := le_antisymm (not_lt.1 hzy) (not_lt.1 hyz)
              subst hyzeq
              simp [hxy]
        · by_cases hyx : y < x
          · rw [if_neg hxy, if_pos hyx] at hab
            cases hab
          · have hxyeq : x = y := le_antisymm (not_lt.1 hyx) (not_lt.1 hxy)
            subst hxyeq
            rw [if_neg hxy, if_neg hyx] at hab
            by_cases hyz : x < z
            · simp [hyz]
            · by_cases hzy : z < x
              · rw [if_neg hyz, if_pos hzy] at hbc
                cases hbc
              · rw [if_neg hyz, if_neg hzy] at hbc ⊢
                exact ih ys zs hab hbc

/-- Counting an element in a `flatMap` sums the counts over the pieces. -/
theorem count_flatMap_sum {α β : Type} [DecidableEq β] (l : List α) (f : α → List β) (x : β) :
    (l.flatMap f).count x = (l.map (fun a => (f a).count x)).sum := by
  induction l with
  | nil => simp
  | cons h t ih => simp [List.flatMap_cons, List.count_append, ih]

/-- Summing the indicator of equality with `s` over a list counts `s`. -/
theorem sum_indicator_count {α : Type} [DecidableEq α] (s : α) (L : List α) :
    (L.map (fun a => if a = s then 1 else 0)).sum = L.count s := by
  induction L with
  | nil => simp
  | cons h t ih =>
    by_cases hh : h = s
    · simp [hh, ih, List.count_cons]
      omega
    · simp [hh, ih, List.count_cons]

/-- The pivot index has no duplicate dates. -/
theorem pivotIndex_nodup (p : List Record) : (pivotIndex p).Nodup :=
  ((List.perm_insertionSort _ _).nodup_iff).2 (List.nodup_dedup _)

/-- The pivot columns have no duplicate species. -/
theorem pivotCols_nodup (p : List Record) : (pivotCols p).Nodup :=
  ((List.perm_insertionSort _ _).nodup_iff).2 (List.nodup_dedup _)

/-- A date is a pivot index entry iff some filtered row bears it. -/
theorem mem_pivotIndex {p : List Record} {d : Int} :
    d ∈ pivotIndex p ↔ ∃ r ∈ p, r.date = some d := by
  unfold pivotIndex
  rw [List.mem_insertionSort, List.mem_dedup, List.mem_filterMap]

/-- A species is a pivot column iff some filtered row with a non-null
date bears it. -/
theorem mem_pivotCols {p : List Record} {s : String} :
    s ∈ pivotCols p ↔ ∃ r ∈ p, r.date.isSome = true ∧ r.species = some s := by
  unfold pivotCols
  rw [List.mem_insertionSort, List.mem_dedup, List.mem_filterMap]
  constructor
  · rintro ⟨r, hr, hs⟩
    exact ⟨r, (List.mem_filter.1 hr).1, (List.mem_filter.1 hr).2, hs⟩
  · rintro ⟨r, hr, h1, h2⟩
    exact ⟨r, List.mem_filter.2 ⟨hr, h1⟩, h2⟩

/-- A nonempty group exhibits a row with that date, species and a
non-null value. -/
theorem groupValues_sound {p : List Record} {d : Int} {s : String}
    (h : groupValues p d s ≠ []) :
    ∃ r ∈ p, r.date = some d ∧ r.species = some s ∧ r.value.isSome = true := by
  obtain ⟨v, hv⟩ := List.exists_mem_of_ne_nil _ h
  rw [groupValues, List.mem_filterMap] at hv
  obtain ⟨r, hr, hif⟩ := hv
  by_cases hc : (r.date == some d && r.species == some s) = true
  · rw [if_pos hc] at hif
    rw [Bool.and_eq_true, beq_iff_eq, beq_iff_eq] at hc
    exact ⟨r, hr, hc.1, hc.2, by rw [hif]; rfl⟩
  · rw [if_neg hc] at hif
    cases hif

/-- Membership in the melted table: exactly the (pivot date, pivot
column) cross product, each row carrying its cell. -/
theorem meltOutput_mem {p : List Record} {d : Int} {s : String} {c : Option ℚ} :
    TrendRow.mk d s c ∈ meltOutput p ↔
      (d ∈ pivotIndex p ∧ s ∈ pivotCols p ∧ c = cellMean p d s) := by
  rw [meltOutput, List.mem_flatMap]
  constructor
  · rintro ⟨sp, hsp, hmem⟩
    rw [List.mem_map] at hmem
    obtain ⟨d', hd', heq⟩ := hmem
    rw [TrendRow.mk.injEq] at heq
    obtain ⟨h1, h2, h3⟩ := heq
    subst h1; subst h2
    exact ⟨hd', hsp, h3.symm⟩
  · rintro ⟨hd, hs, hc⟩
    exact ⟨s, hs, List.mem_map.2 ⟨d, hd, by rw [hc]⟩⟩

/-- The melted table carries each pivot cell exactly once. -/
theorem meltOutput_count {p : List Record} {d : Int} {s : String}
    (hd : d ∈ pivotIndex p) (hs : s ∈ pivotCols p) :
    (meltOutput p).count (TrendRow.mk d s (cellMean p d s)) = 1 := by
  rw [meltOutput, count_flatMap_sum]
  have hinj : Function.Injective (fun d' => TrendRow.mk d' s (cellMean p d' s)) := by
    intro a b hab
    rw [TrendRow.mk.injEq] at hab
    exact hab.1
  have hcongr : (pivotCols p).map (fun sp =>
        ((pivotIndex p).map (fun d' => TrendRow.mk d' sp (cellMean p d' sp))).count
          (TrendRow.mk d s (cellMean p d s)))
      = (pivotCols p).map (fun sp => if sp = s then 1 else 0) := by
    apply List.map_congr_left
    intro sp _
    by_cases hss : sp = s
    · subst hss
      rw [if_pos rfl]
      have := List.count_map_of_injective (pivotIndex p)
        (fun d' => TrendRow.mk d' sp (cellMean p d' sp)) hinj d
      rw [this]
      exact List.count_eq_one_of_mem (pivotIndex_nodup p) hd
    · rw [if_neg hss]
      rw [List.count_eq_zero]
      intro hmem
      rw [List.mem_map] at hmem
      obtain ⟨d', _, heq⟩ := hmem
      rw [TrendRow.mk.injEq] at heq
      exact hss heq.2.1
  rw [hcongr, sum_indicator_count]
  exact List.count_eq_one_of_mem (pivotCols_nodup p) hs

/-- Date parsing preserves the number of rows when it succeeds. -/
theorem parseDates_length {rows : List RawRecord} {base : List BaseRecord}
    (h : parseDates rows = Except.ok base) : base.length = rows.length := by
  induction rows generalizing base with
  | nil =>
    simp only [parseDates] at h
    cases h
    rfl
  | cons r rs ih =>
    simp only [parseDates] at h
    split at h
    · next d rest hd hrest =>
      cases h
      simp [ih hrest]
    · cases h

/-- A malformed date anywhere makes the whole `pd.to_datetime` raise. -/
theorem parseDates_malformed {rows : List RawRecord}
    (h : ∃ r ∈ rows, r.rawDate = RawDate.malformed) :
    parseDates rows = Except.error () := by
  induction rows with
  | nil => simp at h
  | cons r rs ih =>
    obtain ⟨x, hx, hmal⟩ := h
    rw [List.mem_cons] at hx
    rcases hx with rfl | hx
    · show parseDates (x :: rs) = Except.error ()
      unfold parseDates
      rw [hmal]
      cases hps : parseDates rs <;> rfl
    · have hrec := ih ⟨x, hx, hmal⟩
      unfold parseDates
      rw [hrec]
      cases hpd : parseDate r.rawDate <;> rfl

/-- A coordinate table with pairwise-distinct site names matches each
site at most once. -/
theorem coords_filter_len {coords : List CoordRow}
    (h : (coords.map CoordRow.site).Nodup) (x : String) :
    (coords.filter (fun c => c.site == x)).length ≤ 1 := by
  induction coords with
  | nil => simp
  | cons c cs ih =>
    rw [List.map_cons, List.nodup_cons] at h
    rw [List.filter_cons]
    by_cases hc : (c.site == x) = true
    · rw [if_pos hc]
      have hnil : cs.filter (fun c' => c'.site == x) = [] := by
        rw [List.filter_eq_nil_iff]
        intro c' hc' hcx
        apply h.1
        rw [List.mem_map]
        refine ⟨c', hc', ?_⟩
        rw [eq_of_beq hcx, ← eq_of_beq hc]
      rw [hnil]
      simp
    · rw [if_neg hc]
      exact ih h.2

/-- Under unique coordinate keys the left join reproduces the base rows
in order (so it neither drops nor duplicates any of them). -/
theorem mergeLeft_map_toBase {coords : List CoordRow}
    (h : (coords.map CoordRow.site).Nodup) (df : List BaseRecord) :
    (mergeLeft df coords).map Record.toBase = df := by
  induction df with
  | nil => rfl
  | cons r rs ih =>
    rw [mergeLeft, List.flatMap_cons, List.map_append]
    have hbranch :
        ((if (coords.filter (fun c => c.site == r.site)).isEmpty
          then [⟨r.site, r.date, r.species, r.value, r.units, none, none⟩]
          else (coords.filter (fun c => c.site == r.site)).map
            (fun c => ⟨r.site, r.date, r.species, r.value, r.units, c.lat, c.lon⟩)) :
            List Record).map Record.toBase = [r] := by
      by_cases hms : (coords.filter (fun c => c.site == r.site)).isEmpty = true
      · rw [if_pos hms]
        rfl
      · rw [if_neg hms]
        have hlen := coords_filter_len h r.site
        cases hms2 : coords.filter (fun c => c.site == r.site) with
        | nil => rw [hms2] at hms; simp at hms
        | cons c cs =>
          rw [hms2] at hlen
          have hcs : cs = [] := by
            cases cs with
            | nil => rfl
            | cons _ _ => simp at hlen
          subst hcs
          rfl
    rw [hbranch]
    have ih2 : (mergeLeft rs coords).map Record.toBase = rs := ih
    rw [mergeLeft] at ih2
    rw [ih2]
    rfl

/-- Joined rows whose site is absent from the coordinate table carry null
coordinates. -/
theorem mergeLeft_absent_null {df : List BaseRecord} {coords : List CoordRow} :
    ∀ jr ∈ mergeLeft df coords, jr.site ∉ coords.map CoordRow.site →
      jr.lat = none ∧ jr.lon = none := by
  intro jr hjr habs
  rw [mergeLeft, List.mem_flatMap] at hjr
  obtain ⟨r, _, hb⟩ := hjr
  by_cases hms : (coords.filter (fun c => c.site == r.site)).isEmpty = true
  · rw [if_pos hms] at hb
    rw [List.mem_singleton] at hb
    subst hb
    exact ⟨rfl, rfl⟩
  · rw [if_neg hms] at hb
    rw [List.mem_map] at hb
    obtain ⟨c, hc, heq⟩ := hb
    exfalso
    apply habs
    rw [List.mem_map]
    refine ⟨c, (List.mem_filter.1 hc).1, ?_⟩
    have hsite : c.site = r.site := eq_of_beq (List.mem_filter.1 hc).2
    rw [hsite, ← heq]

/-- C1: for every parseable primary records table and every coordinate
reference table with unique site keys (the `CoordinateEntry` invariant),
`load_data` returns a joined dataset with exactly as many rows as the
primary table, whose rows are the primary rows in order (the left join
neither drops nor duplicates any of them), and whose rows for sites
absent from the coordinate table carry null coordinates. -/
theorem load_data_left_join_rowcount (rows : List RawRecord) (coords : List CoordRow)
    (base : List BaseRecord) (hparse : parseDates rows = Except.ok base)
    (hnodup : (coords.map CoordRow.site).Nodup) :
    ∃ joined : List Record,
      load_data (some rows) (some coords) = Except.ok joined ∧
      joined.length = rows.length ∧
      joined.map Record.toBase = base ∧
      ∀ jr ∈ joined, jr.site ∉ coords.map CoordRow.site →
        jr.lat = none ∧ jr.lon = none := by
  refine ⟨mergeLeft base coords, ?_, ?_, mergeLeft_map_toBase hnodup base,
    mergeLeft_absent_null⟩
  · simp only [load_data]
    rw [hparse]
  · have h1 := congrArg List.length (mergeLeft_map_toBase hnodup base)
    rw [List.length_map] at h1
    rw [h1, parseDates_length hparse]

/-- C1 witness: the concrete two-row table joined against the one-site
coordinate table keeps both rows and leaves Site Z's coordinates null. -/
theorem load_data_left_join_rowcount_witness :
    ∃ joined : List Record,
      load_data (some exRawRows) (some exCoords) = Except.ok joined ∧
      joined.length = exRawRows.length ∧
      joined.map Record.toBase = exBase ∧
      ∀ jr ∈ joined, jr.site ∉ exCoords.map CoordRow.site →
        jr.lat = none ∧ jr.lon = none :=
  load_data_left_join_rowcount exRawRows exCoords exBase rfl (by decide)

/-- C2: what `load_data` actually does when a source is missing. A
missing coordinates file halts with no result (`st.stop`), but a missing
primary records file does NOT yield an empty joined dataset: the merge of
the column-less `pd.DataFrame()` raises `KeyError('Site_Description')`,
so loading crashes despite the code's own "Using empty dataset" warning. -/
theorem load_data_missing_sources :
    load_data none (some exCoords) = Except.error LoadError.mergeKeyError ∧
    load_data none none = Except.error LoadError.coordsMissing :=
  ⟨rfl, rfl⟩

/-- C3: the filter returns exactly the rows satisfying the conjunction of
species membership, inclusive date-range containment, and value non-null;
and when no row satisfies the species predicate the result is the empty
list, not an error. -/
theorem filter_dataset_conj (df : List Record) (sl : List String) (s e : Int) :
    (∀ r : Record, r ∈ filter_dataset df sl s e ↔
      (r ∈ df ∧ (∃ n, r.species = some n ∧ n ∈ sl) ∧
       (∃ d, r.date = some d ∧ s ≤ d ∧ d ≤ e) ∧ r.value ≠ none)) ∧
    ((∀ r ∈ df, ∀ n, r.species = some n → n ∉ sl) →
      filter_dataset df sl s e = []) := by
  have hpred : ∀ r : Record,
      (((match r.species with
         | some n => sl.contains n
         | none => false) &&
        (match r.date with
         | some d => decide (s ≤ d) && decide (d ≤ e)
         | none => false)) &&
       r.value.isSome) = true ↔
      ((∃ n, r.species = some n ∧ n ∈ sl) ∧
       (∃ d, r.date = some d ∧ s ≤ d ∧ d ≤ e) ∧ r.value ≠ none) := by
    intro r
    rcases r with ⟨site, date, species, value, units, lat, lon⟩
    cases species <;> cases date <;> cases value <;> simp
  constructor
  · intro r
    rw [filter_dataset, List.mem_filter]
    exact and_congr_right (fun _ => hpred r)
  · intro hno
    rw [filter_dataset, List.filter_eq_nil_iff]
    intro r hr hb
    replace hb := (hpred r).1 hb
    obtain ⟨⟨n, hsp, hmem⟩, _, _⟩ := hb
    exact hno r hr n hsp hmem

/-- C3 witness: filtering the concrete dataset for a species absent from
it yields the empty subset. -/
theorem filter_dataset_conj_witness :
    filter_dataset exBoundsDf ["Absent sp."] 0 10 = [] :=
  (filter_dataset_conj exBoundsDf ["Absent sp."] 0 10).2 (by decide)

/-- C4: for a fixed dataset, species selection and site selection, the
trend output of the dashboard is identical across any two map date
windows — `prepare_trends_data` receives the full dataset, never the
date-filtered one. -/
theorem trends_independent_of_map_window (df : List Record)
    (species_selected : List String) (s1 e1 s2 e2 : Int)
    (trend_species : List String) (site : String) :
    (dashboard df species_selected s1 e1 trend_species site).trend =
    (dashboard df species_selected s2 e2 trend_species site).trend := rfl

/-- C6: with no explicit selection, the default is all species containing
"Karenia"; when none match it is the singleton of the lexicographically
least species, never empty for a nonempty species list; concretely the
two spec examples evaluate as stated. -/
theorem default_species_policy :
    (∀ df : List Record, all_species df ≠ [] →
      (((all_species df).filter (fun s => pyContains s "Karenia") ≠ [] →
        default_species df =
          (all_species df).filter (fun s => pyContains s "Karenia")) ∧
       ((all_species df).filter (fun s => pyContains s "Karenia") = [] →
        ∃ hd tl, all_species df = hd :: tl ∧ default_species df = [hd] ∧
          ∀ s ∈ all_species df, pyStrLe hd s = true) ∧
       default_species df ≠ [])) ∧
    default_species exKareniaDf = ["Karenia mikimotoi"] ∧
    default_species exNoKareniaDf = ["Alexandrium sp."] := by
  refine ⟨?_, by decide, by decide⟩
  intro df hne
  have hsorted : List.Sorted (fun a b : String => pyStrLe a b = true) (all_species df) := by
    unfold all_species
    haveI : IsTotal String (fun a b : String => pyStrLe a b = true) :=
      ⟨fun a b => charsLe_total a.toList b.toList⟩
    haveI : IsTrans String (fun a b : String => pyStrLe a b = true) :=
      ⟨fun a b c => charsLe_trans a.toList b.toList c.toList⟩
    exact List.sorted_insertionSort _ _
  refine ⟨?_, ?_, ?_⟩
  · intro hks
    unfold default_species
    rw [if_neg (by simpa [List.isEmpty_iff] using hks)]
  · intro hks
    obtain ⟨hd, tl, hA⟩ := List.exists_cons_of_ne_nil hne
    refine ⟨hd, tl, hA, ?_, ?_⟩
    · unfold default_species
      rw [if_pos (by simp [List.isEmpty_iff, hks]), hA]
      rfl
    · rw [hA] at hsorted
      intro s hsm
      rw [hA] at hsm
      rcases List.mem_cons.1 hsm with rfl | hmem
      · exact charsLe_refl _
      · exact List.rel_of_sorted_cons hsorted s hmem
  · by_cases hks : (all_species df).filter (fun s => pyContains s "Karenia") = []
    · obtain ⟨hd, tl, hA⟩ := List.exists_cons_of_ne_nil hne
      unfold default_species
      rw [if_pos (by simp [List.isEmpty_iff, hks]), hA]
      simp
    · unfold default_species
      rw [if_neg (by simpa [List.isEmpty_iff] using hks)]
      exact hks

/-- C6 witness: on the concrete Karenia-containing dataset, the default
selection is the filter of Karenia-matching names. -/
theorem default_species_policy_witness :
    default_species exKareniaDf =
      (all_species exKareniaDf).filter (fun s => pyContains s "Karenia") :=
  (default_species_policy.1 exKareniaDf (by decide)).1 (by decide)

/-- C8 counterexample: on a table whose second row has a malformed date,
`load_data` fails as a whole with a date parse error; it does not drop
the bad row and load the remaining one as the claim states. -/
theorem load_malformed_not_per_row :
    load_data (some exMalformedRows) (some exCoords) =
      Except.error LoadError.dateParseError := rfl

/-- C8 amended: a malformed date value in any row is fatal to the whole
load — `pd.to_datetime` (default `errors='raise'`) raises before the
coordinate check, so no rows at all are loaded. -/
theorem malformed_date_fatal (rows : List RawRecord) (coords : Option (List CoordRow))
    (h : ∃ r ∈ rows, r.rawDate = RawDate.malformed) :
    load_data (some rows) coords = Except.error LoadError.dateParseError := by
  simp only [load_data]
  rw [parseDates_malformed h]

/-- C8 witness: the amended fatality holds at the concrete malformed
table even when the coordinates file is also missing (parse precedes the
coordinate check). -/
theorem malformed_date_fatal_witness :
    load_data (some exMalformedRows) none = Except.error LoadError.dateParseError :=
  malformed_date_fatal exMalformedRows none (by decide)

/-- C10: every row the marker loop passes to the colormap has a non-null
value (the filter's not-null predicate guarantees it), so the sentinel
substitution `value if pd.notna(value) else 1` always takes the value
branch. -/
theorem marker_color_not_null (df : List Record) (sl : List String) (s e : Int)
    (r : Record) (h : r ∈ markerPoints (filter_dataset df sl s e)) :
    ∃ v : ℚ, r.value = some v ∧ colorInput r = v := by
  have h1 : r ∈ filter_dataset df sl s e := (List.mem_filter.1 h).1
  have h2 := (List.mem_filter.1 h1).2
  simp only [Bool.and_eq_true] at h2
  obtain ⟨v, hv⟩ := Option.isSome_iff_exists.1 h2.2
  exact ⟨v, hv, by simp [colorInput, hv]⟩

/-- C10 witness: the concrete marker row is passed its own value, not the
sentinel. -/
theorem marker_color_not_null_witness :
    ∃ v : ℚ, exPointRow.value = some v ∧ colorInput exPointRow = v :=
  marker_color_not_null exBoundsDf ["K"] 0 10 exPointRow (by decide)

/-- C5: the trend aggregator groups the species/site-filtered rows by
(date, species) and reduces each nonempty group to a single point whose
value is exactly the arithmetic mean of the group's values. -/
theorem trends_group_mean (df : List Record) (sl : List String) (site : String)
    (d : Int) (s : String)
    (h : groupValues (trendFilter df sl site) d s ≠ []) :
    (prepare_trends_data df sl site).count
      (TrendRow.mk d s (some ((groupValues (trendFilter df sl site) d s).sum /
        ((groupValues (trendFilter df sl site) d s).length : ℚ)))) = 1 ∧
    ∀ c : Option ℚ, TrendRow.mk d s c ∈ prepare_trends_data df sl site →
      c = some ((groupValues (trendFilter df sl site) d s).sum /
        ((groupValues (trendFilter df sl site) d s).length : ℚ)) := by
  obtain ⟨r, hrp, hrd, hrs, hrv⟩ := groupValues_sound h
  have hdmem : d ∈ pivotIndex (trendFilter df sl site) := mem_pivotIndex.2 ⟨r, hrp, hrd⟩
  have hsmem : s ∈ pivotCols (trendFilter df sl site) :=
    mem_pivotCols.2 ⟨r, hrp, ⟨by rw [hrd]; rfl, hrs⟩⟩
  have hcell : cellMean (trendFilter df sl site) d s =
      some ((groupValues (trendFilter df sl site) d s).sum /
        ((groupValues (trendFilter df sl site) d s).length : ℚ)) := by
    unfold cellMean
    rw [if_neg (by simpa [List.isEmpty_iff] using h)]
  have hne : ¬ ((trendFilter df sl site).isEmpty = true) := by
    rw [List.isEmpty_iff]
    intro h0
    rw [h0] at hrp
    exact absurd hrp (List.not_mem_nil r)
  have hout : prepare_trends_data df sl site = meltOutput (trendFilter df sl site) := by
    unfold prepare_trends_data
    rw [if_neg hne]
  constructor
  · rw [hout, ← hcell]
    exact meltOutput_count hdmem hsmem
  · intro c hc
    rw [hout] at hc
    have h3 := (meltOutput_mem.1 hc).2.2
    rw [h3, hcell]

/-- C5 witness: the two same-day, same-species records with values 100
and 300 collapse to exactly one aggregated point of value 200. -/
theorem trends_group_mean_witness :
    (prepare_trends_data exMeanDf ["K"] "All Sites").count
      (TrendRow.mk 5 "K" (some 200)) = 1 := by
  have h := (trends_group_mean exMeanDf ["K"] "All Sites" 5 "K" (by decide)).1
  have hg : groupValues (trendFilter exMeanDf ["K"] "All Sites") 5 "K" = [100, 300] := by
    decide
  rw [hg] at h
  have hv : (([100, 300] : List ℚ).sum / (([100, 300] : List ℚ).length : ℚ)) = 200 := by
    norm_num
  rw [hv] at h
  exact h

/-- C7 counterexample: species A has no record on date 2, yet the melted
output contains the row (2, A, NaN) — the pair is emitted with a null
mean, not omitted. -/
theorem trends_emits_missing_pair :
    TrendRow.mk 2 "A" none ∈ prepare_trends_data exTrendDf ["A", "B"] "All Sites" ∧
    (trendFilter exTrendDf ["A", "B"] "All Sites").filter
      (fun r => r.date == some 2 && r.species == some "A") = [] := by
  decide

/-- C7 amended: the long-form output contains a row for every (date,
species) pair in the cross product of the dates and the species present
in the filtered data, each carrying the group's mean; pairs with no
records carry a null mean value — they are neither omitted nor
zero-filled. -/
theorem trends_long_form_mem (df : List Record) (sl : List String) (site : String)
    (d : Int) (s : String) (c : Option ℚ) :
    TrendRow.mk d s c ∈ prepare_trends_data df sl site ↔
      ((∃ r ∈ trendFilter df sl site, r.date = some d) ∧
       (∃ r ∈ trendFilter df sl site, r.date.isSome = true ∧ r.species = some s) ∧
       c = cellMean (trendFilter df sl site) d s) := by
  by_cases hpe : (trendFilter df sl site).isEmpty = true
  · have hnil : trendFilter df sl site = [] := List.isEmpty_iff.1 hpe
    unfold prepare_trends_data
    rw [if_pos hpe, hnil]
    simp
  · unfold prepare_trends_data
    rw [if_neg hpe]
    rw [meltOutput_mem, mem_pivotIndex, mem_pivotCols]

/-- C9 counterexample: with one fully located row at (-35, 138) and one
row whose longitude is null but latitude is -40, the produced point
sequence is just the first row (own latitude minimum -35), yet the
computed box uses latitude -40; and for a subset producing NO points the
box is still computed. -/
theorem bounds_not_over_points :
    markerPoints [exPointRow, exHalfCoordRow] = [exPointRow] ∧
    seriesMin ((markerPoints [exPointRow, exHalfCoordRow]).map Record.lat) = some (-35) ∧
    fitBoundsCall [exPointRow, exHalfCoordRow] =
      some ((some (-40), some 138), (some (-35), some 138)) ∧
    markerPoints [exHalfCoordRow] = [] ∧
    fitBoundsCall [exHalfCoordRow] = some ((some (-40), none), (some (-40), none)) := by
  decide

/-- C9 amended: the bounding box is the per-axis min/max of the filtered
subset's non-null latitudes and longitudes, and is computed whenever the
filtered subset is nonempty; when every filtered row has both
coordinates, it coincides with the min/max over exactly the produced
points. -/
theorem bounds_spec (df : List Record) (sl : List String) (s e : Int)
    (h1 : filter_dataset df sl s e ≠ [])
    (h2 : ∀ r ∈ filter_dataset df sl s e, r.lat.isSome = true ∧ r.lon.isSome = true) :
    markerPoints (filter_dataset df sl s e) = filter_dataset df sl s e ∧
    fitBoundsCall (filter_dataset df sl s e) =
      some ((seriesMin ((markerPoints (filter_dataset df sl s e)).map Record.lat),
             seriesMin ((markerPoints (filter_dataset df sl s e)).map Record.lon)),
            (seriesMax ((markerPoints (filter_dataset df sl s e)).map Record.lat),
             seriesMax ((markerPoints (filter_dataset df sl s e)).map Record.lon))) := by
  have hmp : markerPoints (filter_dataset df sl s e) = filter_dataset df sl s e := by
    rw [markerPoints, List.filter_eq_self]
    intro r hr
    rw [Bool.and_eq_true]
    exact ⟨(h2 r hr).1, (h2 r hr).2⟩
  refine ⟨hmp, ?_⟩
  unfold fitBoundsCall
  rw [if_neg (by simpa [List.isEmpty_iff] using h1), hmp]

/-- C9 witness: for the two fully located points at (-35, 138) and
(-34, 139) the computed box is [[-35, 138], [-34, 139]]. -/
theorem bounds_spec_witness :
    fitBoundsCall (filter_dataset exBoundsDf ["K"] 0 10) =
      some ((some (-35), some 138), (some (-34), some 139)) := by
  have h := bounds_spec exBoundsDf ["K"] 0 10 (by decide) (by decide)
  rw [h.2]
  decide
